import Mathlib

/-!
Shallow embedding of the Ventashop model layer (`ventashop/models.py`).

Monetary amounts are Django `DecimalField(decimal_places=2)` values, which are
exact decimals; we model them as integers (a fixed scaling of the decimal),
which is faithful for the additions and integer multiplications the code
performs.  The database is modelled as a `World` record holding the persisted
rows of each table, with `nextId` the next fresh primary key.  Each Django
`save()` override becomes a function on `World`; Django's `objects.create`,
`get_or_create` and `update_or_create` are inlined where the source calls
them, creating the row and running the overridden `save`.
-/

namespace Ventashop

/-- Characters the Python regex `\s` matches (ASCII range). -/
def isPySpace (c : Char) : Bool :=
  c == ' ' || c == '\t' || c == '\n' || c == '\r' || c == '\x0b' || c == '\x0c'

/-- Collapse runs of consecutive dashes to a single dash. -/
def squeezeDashes : List Char → List Char
  | [] => []
  | [c] => [c]
  | a :: b :: rest =>
    if a == '-' && b == '-' then squeezeDashes (b :: rest)
    else a :: squeezeDashes (b :: rest)

/-- Characters stripped from both ends by Django slugify's `.strip("-_")`. -/
def isStripChar (c : Char) : Bool := c == '-' || c == '_'

/-- Django's `slugify` (the `allow_unicode=False` path) on its ASCII fragment:
lowercase, keep word characters, whitespace and dashes, collapse runs of
whitespace/dashes to a single dash, strip leading/trailing dashes and
underscores.  (The NFKD transliteration of non-ASCII characters is outside the
model; non-ASCII characters are dropped.) -/
def slugify (s : String) : String :=
  let ascii := s.toList.filter (fun c => c.toNat ≤ 127)
  let lowered := ascii.map Char.toLower
  let kept := lowered.filter (fun c => c.isAlphanum || c == '_' || c == '-' || isPySpace c)
  let dashed := kept.map (fun c => if c == '-' || isPySpace c then '-' else c)
  String.mk (((squeezeDashes dashed).dropWhile isStripChar).reverse.dropWhile isStripChar).reverse

/-- Modelled from the spec: `ventashop/utils.py` is not under `src/`, and
`Order.save` calls its `unique_ref_number_generator`, which the spec describes
as a "straightforward uniqueness-checked string utility" producing a reference
number unique among orders.  We model it as a generator that proposes candidate
reference strings and returns the first candidate used by no existing order;
`refs` is the list of `ref_number`s of the existing orders. -/
def unique_ref_number_generator (refs : List String) : String :=
  (((List.range (refs.length + 1)).map (fun k => String.mk (List.replicate (k + 1) 'R'))).filter
    (fun r => !(refs.contains r))).headD (String.mk [ 'R' ])

structure Product where
  id : Nat
  name : String
  slug : String
  price : Int
  deriving DecidableEq

structure Cart where
  id : Nat
  total_price : Int
  customerAccount : Option Nat
  deriving DecidableEq

structure Order where
  id : Nat
  total_price : Int
  ref_number : String
  slug : String
  customerAccount : Option Nat
  deriving DecidableEq

structure LineItem where
  id : Nat
  productId : Nat
  quantity : Int
  price : Int
  cart : Option Nat
  order : Option Nat
  deriving DecidableEq

structure Comment where
  id : Nat
  orderId : Nat
  content : String
  deriving DecidableEq

/-- The persisted state: one field per table, plus the next fresh primary key. -/
structure World where
  products : List Product
  carts : List Cart
  orders : List Order
  items : List LineItem
  comments : List Comment
  nextId : Nat
  deriving DecidableEq

def getCart? (w : World) (cid : Nat) : Option Cart := w.carts.find? (fun c => c.id == cid)

def getOrder? (w : World) (oid : Nat) : Option Order := w.orders.find? (fun o => o.id == oid)

def getProduct? (w : World) (pid : Nat) : Option Product :=
  w.products.find? (fun p => p.id == pid)

/-- The line items whose `cart` foreign key is `cid`
(`LineItem.objects.filter(cart=self)` / `self.lineitem_set.all()`). -/
def itemsOfCart (items : List LineItem) (cid : Nat) : List LineItem :=
  items.filter (fun li => li.cart == some cid)

/-- The line items whose `order` foreign key is `oid`
(`LineItem.objects.filter(order=self)`). -/
def itemsOfOrder (items : List LineItem) (oid : Nat) : List LineItem :=
  items.filter (fun li => li.order == some oid)

def sumPrices (l : List LineItem) : Int := (l.map LineItem.price).sum

/-- `self.product.price`: the current unit price of the product row the line
item references (the foreign key always resolves in reachable states). -/
def productPrice (w : World) (pid : Nat) : Int :=
  match getProduct? w pid with
  | some p => p.price
  | none => 0

/-- `LineItem.save`: clamp `quantity` up to 1000, then set
`price = product.price * quantity`, and persist the row (persisting is done by
the caller via `setItem`/append). -/
def LineItem.save (w : World) (li : LineItem) : LineItem :=
  let q := if li.quantity < 1000 then 1000 else li.quantity
  { li with quantity := q, price := productPrice w li.productId * q }

/-- Persist an updated line item row (UPDATE by primary key). -/
def setItem (w : World) (li : LineItem) : World :=
  { w with items := w.items.map (fun x => if x.id = li.id then li else x) }

/-- `Cart.calculate_total_price`: sum of the prices of the cart's line items. -/
def Cart.calculate_total_price (w : World) (cid : Nat) : Int :=
  sumPrices (itemsOfCart w.items cid)

/-- `Cart.save`: recompute `total_price` from the cart's line items, then
persist (UPDATE if the row exists, INSERT otherwise). -/
def Cart.save (w : World) (c : Cart) : World :=
  let c2 := { c with total_price := Cart.calculate_total_price w c.id }
  { w with carts :=
      if w.carts.any (fun x => x.id == c2.id) then
        w.carts.map (fun x => if x.id = c2.id then c2 else x)
      else w.carts ++ [c2] }

/-- `Cart.add_line_item(product, quantity)`: `get_or_create(product, cart)`;
if the row existed, add `quantity` to it and re-save; if it was created and
`quantity < 1000`, delete it again and abort (the consumed primary key
remains consumed); otherwise set its quantity and re-save.  Ends with
`self.save()`. -/
def Cart.add_line_item (w : World) (cid pid : Nat) (q : Int) : World :=
  match getCart? w cid with
  | none => w
  | some c =>
    match w.items.find? (fun li => li.productId == pid && li.cart == some cid) with
    | some li =>
      let li2 := LineItem.save w { li with quantity := li.quantity + q }
      Cart.save (setItem w li2) c
    | none =>
      if q < 1000 then { w with nextId := w.nextId + 1 }
      else
        let li0 : LineItem :=
          { id := w.nextId, productId := pid, quantity := 1000, price := 0,
            cart := some cid, order := none }
        let w1 : World := { w with items := w.items ++ [LineItem.save w li0],
                                   nextId := w.nextId + 1 }
        let li2 := LineItem.save w1 { li0 with quantity := q }
        Cart.save (setItem w1 li2) c

/-- `Cart.update_line_item(product, quantity)`: abort when `quantity < 1000`;
otherwise `update_or_create(product, cart)`, set the quantity, re-save the
line item and the cart. -/
def Cart.update_line_item (w : World) (cid pid : Nat) (q : Int) : World :=
  if q < 1000 then w
  else
    match getCart? w cid with
    | none => w
    | some c =>
      match w.items.find? (fun li => li.productId == pid && li.cart == some cid) with
      | some li =>
        let li2 := LineItem.save w { li with quantity := q }
        Cart.save (setItem w li2) c
      | none =>
        let li0 : LineItem :=
          { id := w.nextId, productId := pid, quantity := 1000, price := 0,
            cart := some cid, order := none }
        let w1 : World := { w with items := w.items ++ [LineItem.save w li0],
                                   nextId := w.nextId + 1 }
        let li2 := LineItem.save w1 { li0 with quantity := q }
        Cart.save (setItem w1 li2) c

/-- `Cart.remove_line_item(line_item)`: delete the given line item row, then
`self.save()`. -/
def Cart.remove_line_item (w : World) (cid liId : Nat) : World :=
  match getCart? w cid with
  | none => w
  | some c => Cart.save { w with items := w.items.filter (fun li => !(li.id == liId)) } c

/-- `Cart.empty_cart`: delete every line item of the cart, then `self.save()`. -/
def Cart.empty_cart (w : World) (cid : Nat) : World :=
  match getCart? w cid with
  | none => w
  | some c => Cart.save { w with items := w.items.filter (fun li => !(li.cart == some cid)) } c

/-- `Order.calculate_total_price`: sum of the prices of the order's line items. -/
def Order.calculate_total_price (w : World) (oid : Nat) : Int :=
  sumPrices (itemsOfOrder w.items oid)

def refNumbers (w : World) : List String := w.orders.map Order.ref_number

/-- The field updates `Order.save` performs before persisting: generate
`ref_number` when empty, derive `slug` from `ref_number` when empty, and
recompute `total_price` from the order's line items. -/
def Order.save_fields (w : World) (o : Order) : Order :=
  let r := if o.ref_number = "" then unique_ref_number_generator (refNumbers w)
           else o.ref_number
  let s := if o.slug = "" then slugify r else o.slug
  { o with ref_number := r, slug := s, total_price := Order.calculate_total_price w o.id }

/-- `Order.save` on an order instance: apply the field updates and persist
(UPDATE if the row exists, INSERT otherwise). -/
def Order.save (w : World) (o : Order) : World :=
  let o2 := Order.save_fields w o
  { w with orders :=
      if w.orders.any (fun x => x.id == o2.id) then
        w.orders.map (fun x => if x.id = o2.id then o2 else x)
      else w.orders ++ [o2] }

/-- `Order.objects.create()`: build a fresh order row with the field defaults
and INSERT it through `Order.save`; returns the saved instance. -/
def Order.create (w : World) : Order × World :=
  let o0 : Order := { id := w.nextId, total_price := 0, ref_number := "", slug := "",
                      customerAccount := none }
  let o1 := Order.save_fields w o0
  (o1, { w with orders := w.orders ++ [o1], nextId := w.nextId + 1 })

def commentContent : String := "La commande vient d\x27être créée."

/-- `Order.add_comment`: create a comment row attached to the order. -/
def Order.add_comment (w : World) (oid : Nat) : World :=
  { w with comments := w.comments ++ [{ id := w.nextId, orderId := oid,
                                        content := commentContent }],
           nextId := w.nextId + 1 }

/-- The loop body of `Cart.make_order`: for every line item of the cart, set
its `order` to the new order, null its `cart`, and re-save it. -/
def moveItems (w : World) (cid oid : Nat) : World :=
  { w with items := w.items.map (fun li =>
      if li.cart = some cid then LineItem.save w { li with order := some oid, cart := none }
      else li) }

/-- `Cart.make_order`: abort when the cart's stored `total_price` is 0;
otherwise create an order, add its creation comment, set its customer account,
move every line item of the cart to the order (re-saving each), save the order
and finally the cart.  Returns the created order's id. -/
def Cart.make_order (w : World) (cid : Nat) : Option Nat × World :=
  match getCart? w cid with
  | none => (none, w)
  | some c =>
    if c.total_price = 0 then (none, w)
    else
      let p := Order.create w
      let w2 := Order.add_comment p.2 p.1.id
      let w3 := moveItems w2 cid p.1.id
      let w4 := Order.save w3 { p.1 with customerAccount := c.customerAccount }
      (some p.1.id, Cart.save w4 c)

/-- The field update `Product.save` performs: derive `slug` from `name` when
the slug is empty. -/
def Product.save_fields (p : Product) : Product :=
  if p.slug = "" then { p with slug := slugify p.name } else p

/-- `Product.save` on a (possibly modified in memory) product instance:
apply the slug derivation and persist. -/
def Product.save (w : World) (p : Product) : World :=
  let p2 := Product.save_fields p
  { w with products :=
      if w.products.any (fun x => x.id == p2.id) then
        w.products.map (fun x => if x.id = p2.id then p2 else x)
      else w.products ++ [p2] }

/-- Re-fetch a line item by primary key and call `LineItem.save` on it
(e.g. saving a line item from the registered `LineItemAdmin`). -/
def LineItem.resave (w : World) (liId : Nat) : World :=
  match w.items.find? (fun li => li.id == liId) with
  | some li => setItem w (LineItem.save w li)
  | none => w

/-- Re-fetch an order by primary key and call `Order.save` on it. -/
def Order.resave (w : World) (oid : Nat) : World :=
  match getOrder? w oid with
  | some o => Order.save w o
  | none => w

/-- Well-formedness of the persisted state: every primary key and every
foreign key is below the fresh-key counter, and line item primary keys are
distinct.  Every reachable state satisfies this. -/
def WF (w : World) : Prop :=
  (∀ li ∈ w.items, li.id < w.nextId
      ∧ li.order.all (fun o => decide (o < w.nextId)) = true
      ∧ li.cart.all (fun x => decide (x < w.nextId)) = true)
  ∧ (∀ o ∈ w.orders, o.id < w.nextId)
  ∧ (∀ c ∈ w.carts, c.id < w.nextId)
  ∧ (w.items.map LineItem.id).Nodup

/-- Each persisted line item is attached to exactly one of a cart or an order. -/
def itemsOK (w : World) : Prop :=
  ∀ li ∈ w.items, (li.cart ≠ none ∧ li.order = none) ∨ (li.cart = none ∧ li.order ≠ none)

/-- Each persisted line item has quantity at least 1000. -/
def qtyOK (w : World) : Prop := ∀ li ∈ w.items, 1000 ≤ li.quantity

/-- Each persisted line item's price is its product's current unit price times
its quantity. -/
def pricesOK (w : World) : Prop :=
  ∀ li ∈ w.items, li.price = productPrice w li.productId * li.quantity

/-- The stored total of cart `cid` agrees with the sum over its line items. -/
def cartTotalOK (w : World) (cid : Nat) : Prop :=
  ∀ c ∈ w.carts, c.id = cid → c.total_price = Cart.calculate_total_price w cid

/-- The stored total of order `oid` agrees with the sum over its line items. -/
def orderTotalOK (w : World) (oid : Nat) : Prop :=
  ∀ o ∈ w.orders, o.id = oid → o.total_price = Order.calculate_total_price w oid

/-! ### General lemmas about `find?` and `filter` used by the row-store model -/

theorem find?_map_replace {α : Type} (p : α → Bool) (g : α → α) :
    ∀ (l : List α), (∀ x ∈ l, p (g x) = p x) → (l.map g).find? p = (l.find? p).map g := by
  intro l
  induction l with
  | nil => intro _; rfl
  | cons a t ih =>
    intro h
    have ha : p (g a) = p a := h a (List.mem_cons_self a t)
    have iht := ih (fun x hx => h x (List.mem_cons_of_mem a hx))
    by_cases hpa : p a = true
    · rw [List.map_cons, List.find?_cons_of_pos _ (by rw [ha]; exact hpa),
        List.find?_cons_of_pos _ hpa]
      rfl
    · have hpa' : ¬ p a = true := hpa
      rw [List.map_cons, List.find?_cons_of_neg _ (by rw [ha]; exact hpa'),
        List.find?_cons_of_neg _ hpa']
      exact iht

theorem find?_append_some {α : Type} {p : α → Bool} {l₁ : List α} (l₂ : List α) {a : α}
    (h : l₁.find? p = some a) : (l₁ ++ l₂).find? p = some a := by
  rw [List.find?_append, h]; rfl

theorem find?_append_none {α : Type} {p : α → Bool} {l₁ : List α} (l₂ : List α)
    (h : l₁.find? p = none) : (l₁ ++ l₂).find? p = l₂.find? p := by
  rw [List.find?_append, h]; rfl

/-- Looking up the saved row after an UPDATE-or-INSERT persistence step always
finds it. -/
theorem find?_upsert {α : Type} (idOf : α → Nat) (l : List α) (a : α) :
    (if l.any (fun x => idOf x == idOf a) then
       l.map (fun x => if idOf x = idOf a then a else x)
     else l ++ [a]).find? (fun x => idOf x == idOf a) = some a := by
  by_cases hany : l.any (fun x => idOf x == idOf a) = true
  · rw [if_pos hany]
    rw [find?_map_replace _ _ l ?_]
    · rcases Option.isSome_iff_exists.mp (List.find?_isSome.mpr
        (List.any_eq_true.mp hany)) with ⟨y, hy⟩
      have hpy : idOf y = idOf a := by simpa using List.find?_some hy
      rw [hy]
      simp [hpy]
    · intro x _
      by_cases hid : idOf x = idOf a
      · simp [hid]
      · simp [hid]
  · rw [if_neg hany]
    have hnone : l.find? (fun x => idOf x == idOf a) = none := by
      rw [List.find?_eq_none]
      intro x hx hpx
      exact hany (List.any_eq_true.mpr ⟨x, hx, hpx⟩)
    rw [find?_append_none _ hnone]
    simp

/-- Rows untouched by a per-row rewrite that neither creates nor destroys
membership in an order keep the order's item list unchanged. -/
theorem itemsOfOrder_map_stable (g : LineItem → LineItem) (items : List LineItem) (oid : Nat)
    (h : ∀ li ∈ items, (li.order = some oid → g li = li)
        ∧ ((g li).order = some oid → li.order = some oid)) :
    itemsOfOrder (items.map g) oid = itemsOfOrder items oid := by
  unfold itemsOfOrder
  induction items with
  | nil => rfl
  | cons a t ih =>
    have ha := h a (List.mem_cons_self a t)
    have iht := ih (fun x hx => h x (List.mem_cons_of_mem a hx))
    by_cases hao : a.order = some oid
    · rw [List.map_cons]
      rw [ha.1 hao]
      simp only [List.filter_cons]
      simp [hao, iht]
    · have hgo : ¬ (g a).order = some oid := fun hg => hao (ha.2 hg)
      rw [List.map_cons]
      simp only [List.filter_cons]
      simp [hao, hgo, iht]

/-- Deleting rows that do not belong to the order keeps its item list. -/
theorem itemsOfOrder_filter_stable (keep : LineItem → Bool) (items : List LineItem) (oid : Nat)
    (h : ∀ li ∈ items, li.order = some oid → keep li = true) :
    itemsOfOrder (items.filter keep) oid = itemsOfOrder items oid := by
  unfold itemsOfOrder
  induction items with
  | nil => rfl
  | cons a t ih =>
    have ha := h a (List.mem_cons_self a t)
    have iht := ih (fun x hx => h x (List.mem_cons_of_mem a hx))
    by_cases hao : a.order = some oid
    · rw [List.filter_cons, if_pos (by simp [ha hao])]
      simp [hao, iht]
    · by_cases hk : keep a = true
      · simp [List.filter_cons, hk, hao, iht]
      · simp [List.filter_cons, hk, hao, iht]

/-- Appending a row outside the order keeps its item list. -/
theorem itemsOfOrder_append_stable (items : List LineItem) (oid : Nat) (li : LineItem)
    (h : ¬ li.order = some oid) :
    itemsOfOrder (items ++ [li]) oid = itemsOfOrder items oid := by
  unfold itemsOfOrder
  rw [List.filter_append]
  simp [List.filter_cons, h]

@[simp] theorem LineItem.save_id (w : World) (li : LineItem) :
    (LineItem.save w li).id = li.id := rfl

@[simp] theorem LineItem.save_productId (w : World) (li : LineItem) :
    (LineItem.save w li).productId = li.productId := rfl

@[simp] theorem LineItem.save_cart (w : World) (li : LineItem) :
    (LineItem.save w li).cart = li.cart := rfl

@[simp] theorem LineItem.save_order (w : World) (li : LineItem) :
    (LineItem.save w li).order = li.order := rfl

theorem LineItem.save_quantity (w : World) (li : LineItem) :
    (LineItem.save w li).quantity = if li.quantity < 1000 then 1000 else li.quantity := rfl

theorem LineItem.save_price (w : World) (li : LineItem) :
    (LineItem.save w li).price
      = productPrice w li.productId * (if li.quantity < 1000 then 1000 else li.quantity) := rfl

theorem LineItem.save_quantity_ge (w : World) (li : LineItem) :
    1000 ≤ (LineItem.save w li).quantity := by
  rw [LineItem.save_quantity]
  by_cases h : li.quantity < 1000
  · simp [h]
  · simp [h]
    omega

/-- A line item already in sync with its product's price and the minimum
quantity is left unchanged by `LineItem.save`. -/
theorem LineItem.save_of_synced (w : World) (li : LineItem)
    (hq : 1000 ≤ li.quantity) (hp : li.price = productPrice w li.productId * li.quantity) :
    LineItem.save w li = li := by
  unfold LineItem.save
  have h : ¬ li.quantity < 1000 := by omega
  simp [h, hp.symm]

@[simp] theorem setItem_items (w : World) (li : LineItem) :
    (setItem w li).items = w.items.map (fun x => if x.id = li.id then li else x) := rfl

@[simp] theorem setItem_products (w : World) (li : LineItem) :
    (setItem w li).products = w.products := rfl

@[simp] theorem setItem_carts (w : World) (li : LineItem) :
    (setItem w li).carts = w.carts := rfl

@[simp] theorem setItem_orders (w : World) (li : LineItem) :
    (setItem w li).orders = w.orders := rfl

@[simp] theorem cart_save_items (w : World) (c : Cart) :
    (Cart.save w c).items = w.items := rfl

@[simp] theorem cart_save_orders (w : World) (c : Cart) :
    (Cart.save w c).orders = w.orders := rfl

@[simp] theorem cart_save_products (w : World) (c : Cart) :
    (Cart.save w c).products = w.products := rfl

@[simp] theorem order_save_items (w : World) (o : Order) :
    (Order.save w o).items = w.items := rfl

@[simp] theorem order_save_carts (w : World) (o : Order) :
    (Order.save w o).carts = w.carts := rfl

@[simp] theorem order_save_products (w : World) (o : Order) :
    (Order.save w o).products = w.products := rfl

@[simp] theorem product_save_items (w : World) (p : Product) :
    (Product.save w p).items = w.items := rfl

@[simp] theorem product_save_carts (w : World) (p : Product) :
    (Product.save w p).carts = w.carts := rfl

@[simp] theorem product_save_orders (w : World) (p : Product) :
    (Product.save w p).orders = w.orders := rfl

/-- The total of a cart only depends on the line item table. -/
theorem calculate_total_congr (w w2 : World) (cid : Nat) (h : w.items = w2.items) :
    Cart.calculate_total_price w cid = Cart.calculate_total_price w2 cid := by
  unfold Cart.calculate_total_price
  rw [h]

/-- The total of an order only depends on the line item table. -/
theorem order_calculate_total_congr (w w2 : World) (oid : Nat) (h : w.items = w2.items) :
    Order.calculate_total_price w oid = Order.calculate_total_price w2 oid := by
  unfold Order.calculate_total_price
  rw [h]

@[simp] theorem add_comment_items (w : World) (oid : Nat) :
    (Order.add_comment w oid).items = w.items := rfl

@[simp] theorem add_comment_products (w : World) (oid : Nat) :
    (Order.add_comment w oid).products = w.products := rfl

@[simp] theorem add_comment_orders (w : World) (oid : Nat) :
    (Order.add_comment w oid).orders = w.orders := rfl

@[simp] theorem add_comment_carts (w : World) (oid : Nat) :
    (Order.add_comment w oid).carts = w.carts := rfl

@[simp] theorem order_create_items (w : World) :
    (Order.create w).2.items = w.items := rfl

@[simp] theorem order_create_products (w : World) :
    (Order.create w).2.products = w.products := rfl

@[simp] theorem order_create_carts (w : World) :
    (Order.create w).2.carts = w.carts := rfl

theorem order_create_orders (w : World) :
    (Order.create w).2.orders = w.orders ++ [(Order.create w).1] := rfl

@[simp] theorem order_create_fst_id (w : World) :
    (Order.create w).1.id = w.nextId := rfl

@[simp] theorem moveItems_products (w : World) (cid oid : Nat) :
    (moveItems w cid oid).products = w.products := rfl

@[simp] theorem moveItems_carts (w : World) (cid oid : Nat) :
    (moveItems w cid oid).carts = w.carts := rfl

@[simp] theorem moveItems_orders (w : World) (cid oid : Nat) :
    (moveItems w cid oid).orders = w.orders := rfl

theorem moveItems_items (w : World) (cid oid : Nat) :
    (moveItems w cid oid).items = w.items.map (fun li =>
      if li.cart = some cid then LineItem.save w { li with order := some oid, cart := none }
      else li) := rfl

/-- `productPrice` only depends on the product table. -/
theorem productPrice_congr (w w2 : World) (pid : Nat) (h : w.products = w2.products) :
    productPrice w pid = productPrice w2 pid := by
  unfold productPrice getProduct?
  rw [h]

/-- `LineItem.save` only depends on the product table of the world. -/
theorem LineItem.save_congr (w w2 : World) (li : LineItem) (h : w.products = w2.products) :
    LineItem.save w li = LineItem.save w2 li := by
  unfold LineItem.save
  rw [productPrice_congr w w2 li.productId h]

/-- Unfolding `Cart.make_order` on the non-abort path. -/
theorem make_order_eq (w : World) (cid : Nat) (c : Cart)
    (hgc : getCart? w cid = some c) (hnz : ¬ c.total_price = 0) :
    Cart.make_order w cid
      = (some w.nextId,
         Cart.save
           (Order.save
             (moveItems (Order.add_comment (Order.create w).2 w.nextId) cid w.nextId)
             { (Order.create w).1 with customerAccount := c.customerAccount })
           c) := by
  unfold Cart.make_order
  rw [hgc]
  simp [hnz]

/-- `getCart?` after `Cart.save` finds the saved row with its recomputed total. -/
theorem getCart?_save (w : World) (c : Cart) :
    getCart? (Cart.save w c) c.id
      = some { c with total_price := Cart.calculate_total_price w c.id } := by
  unfold getCart? Cart.save
  exact find?_upsert Cart.id w.carts { c with total_price := Cart.calculate_total_price w c.id }

/-- `getOrder?` after `Order.save` finds the saved row with its updated fields. -/
theorem getOrder?_save (w : World) (o : Order) :
    getOrder? (Order.save w o) o.id = some (Order.save_fields w o) := by
  unfold getOrder? Order.save
  have h : (Order.save_fields w o).id = o.id := rfl
  rw [← h]
  exact find?_upsert Order.id w.orders (Order.save_fields w o)

/-- `getProduct?` after `Product.save` finds the saved row. -/
theorem getProduct?_save (w : World) (p : Product) :
    getProduct? (Product.save w p) p.id = some (Product.save_fields p) := by
  unfold getProduct? Product.save
  have h : (Product.save_fields p).id = p.id := by
    unfold Product.save_fields
    by_cases hs : p.slug = ""
    · simp [hs]
    · simp [hs]
  rw [← h]
  exact find?_upsert Product.id w.products (Product.save_fields p)

/-! ### Concrete states used by witnesses and counterexamples.
`exWorld0` is a shop with one product (unit price 2) and one empty cart;
`exWorld1` adds a line item of quantity 1000 to the cart. -/

def exProduct : Product := { id := 0, name := "p", slug := "p", price := 2 }

def exCart : Cart := { id := 1, total_price := 0, customerAccount := none }

def exWorld0 : World :=
  { products := [exProduct], carts := [exCart], orders := [], items := [],
    comments := [], nextId := 2 }

def exWorld1 : World := Cart.add_line_item exWorld0 1 0 1000

/-! ### Claims -/

/-- C2: for every cart whose stored `total_price` is zero, `Cart.make_order`
aborts: it returns no order id, and the world — the cart row, the line item
table, the order table and the comment table — is exactly what it was before
the call. -/
theorem C2_make_order_zero_total_aborts (w : World) (cid : Nat) (c : Cart)
    (hc : getCart? w cid = some c) (h0 : c.total_price = 0) :
    Cart.make_order w cid = (none, w) := by
  unfold Cart.make_order
  rw [hc]
  simp [h0]

/-- Witness for C2 at a concrete empty cart. -/
theorem C2_make_order_zero_total_aborts_witness :
    getCart? exWorld0 1 = some exCart ∧ exCart.total_price = 0
      ∧ Cart.make_order exWorld0 1 = (none, exWorld0) :=
  ⟨rfl, rfl, C2_make_order_zero_total_aborts exWorld0 1 exCart rfl rfl⟩

/-- C7: saving a product with an empty slug derives the slug from the
product's name via `slugify`; saving a product with a non-empty slug persists
the product unchanged. -/
theorem C7_product_save_slug (w : World) (p : Product) :
    (p.slug = "" →
      getProduct? (Product.save w p) p.id = some { p with slug := slugify p.name })
    ∧ (p.slug ≠ "" → getProduct? (Product.save w p) p.id = some p) := by
  constructor
  · intro h
    rw [getProduct?_save]
    unfold Product.save_fields
    rw [if_pos h]
  · intro h
    rw [getProduct?_save]
    unfold Product.save_fields
    rw [if_neg h]

def exProductNoSlug : Product := { id := 5, name := "My Product", slug := "", price := 7 }

/-- Witness for C7: a product without a slug gets `slugify` of its name, one
with a slug keeps it. -/
theorem C7_product_save_slug_witness :
    (exProductNoSlug.slug = ""
      ∧ getProduct? (Product.save exWorld0 exProductNoSlug) exProductNoSlug.id
          = some { exProductNoSlug with slug := slugify exProductNoSlug.name })
    ∧ (exProduct.slug ≠ ""
      ∧ getProduct? (Product.save exWorld0 exProduct) exProduct.id = some exProduct) :=
  ⟨⟨rfl, (C7_product_save_slug exWorld0 exProductNoSlug).1 rfl⟩,
   ⟨by decide, (C7_product_save_slug exWorld0 exProduct).2 (by decide)⟩⟩

/-- C9: `LineItem.save` never aborts on a small quantity: it raises any
quantity below 1000 to exactly 1000 and keeps quantities of at least 1000;
consequently every operation that saves line items — adding, updating,
removing, emptying, placing an order, or re-saving a line item — preserves
the invariant that every persisted line item has quantity at least 1000. -/
theorem C9_min_quantity_clamp (w : World) (li : LineItem) (cid pid liId : Nat) (q : Int)
    (hq : qtyOK w) :
    (li.quantity < 1000 → (LineItem.save w li).quantity = 1000)
    ∧ (1000 ≤ li.quantity → (LineItem.save w li).quantity = li.quantity)
    ∧ qtyOK (Cart.add_line_item w cid pid q)
    ∧ qtyOK (Cart.update_line_item w cid pid q)
    ∧ qtyOK (Cart.remove_line_item w cid liId)
    ∧ qtyOK (Cart.empty_cart w cid)
    ∧ qtyOK (Cart.make_order w cid).2
    ∧ qtyOK (LineItem.resave w liId) := by
  refine ⟨?_, ?_, ?_, ?_, ?_, ?_, ?_, ?_⟩
  · intro h
    rw [LineItem.save_quantity, if_pos h]
  · intro h
    rw [LineItem.save_quantity, if_neg (by omega)]
  · unfold Cart.add_line_item
    split
    · exact hq
    · split
      · intro x hx
        simp only [cart_save_items, setItem_items] at hx
        rcases List.mem_map.mp hx with ⟨y, hy, rfl⟩
        split
        · exact LineItem.save_quantity_ge _ _
        · exact hq y hy
      · split
        · intro x hx
          exact hq x hx
        · intro x hx
          simp only [cart_save_items, setItem_items] at hx
          rcases List.mem_map.mp hx with ⟨y, hy, rfl⟩
          split
          · exact LineItem.save_quantity_ge _ _
          · rcases List.mem_append.mp hy with hy1 | hy2
            · exact hq y hy1
            · have hy2x : y = LineItem.save w
                  { id := w.nextId, productId := pid, quantity := 1000, price := 0,
                    cart := some cid, order := none } := by simpa using hy2
              rw [hy2x]
              exact LineItem.save_quantity_ge _ _
  · unfold Cart.update_line_item
    split
    · exact hq
    · split
      · exact hq
      · split
        · intro x hx
          simp only [cart_save_items, setItem_items] at hx
          rcases List.mem_map.mp hx with ⟨y, hy, rfl⟩
          split
          · exact LineItem.save_quantity_ge _ _
          · exact hq y hy
        · intro x hx
          simp only [cart_save_items, setItem_items] at hx
          rcases List.mem_map.mp hx with ⟨y, hy, rfl⟩
          split
          · exact LineItem.save_quantity_ge _ _
          · rcases List.mem_append.mp hy with hy1 | hy2
            · exact hq y hy1
            · have hy2x : y = LineItem.save w
                  { id := w.nextId, productId := pid, quantity := 1000, price := 0,
                    cart := some cid, order := none } := by simpa using hy2
              rw [hy2x]
              exact LineItem.save_quantity_ge _ _
  · unfold Cart.remove_line_item
    split
    · exact hq
    · intro x hx
      simp only [cart_save_items] at hx
      exact hq x (List.mem_of_mem_filter hx)
  · unfold Cart.empty_cart
    split
    · exact hq
    · intro x hx
      simp only [cart_save_items] at hx
      exact hq x (List.mem_of_mem_filter hx)
  · unfold Cart.make_order
    split
    · exact hq
    · split
      · exact hq
      · intro x hx
        simp only [cart_save_items, order_save_items, moveItems_items,
          add_comment_items, order_create_items] at hx
        rcases List.mem_map.mp hx with ⟨y, hy, rfl⟩
        split
        · exact LineItem.save_quantity_ge _ _
        · exact hq y hy
  · unfold LineItem.resave
    split
    · intro x hx
      simp only [setItem_items] at hx
      rcases List.mem_map.mp hx with ⟨y, hy, rfl⟩
      split
      · exact LineItem.save_quantity_ge _ _
      · exact hq y hy
    · exact hq

/-- `LineItem.save` leaves the saved row in sync: its stored price is its
product's current unit price times its stored (clamped) quantity. -/
theorem LineItem.save_synced (w : World) (z : LineItem) :
    (LineItem.save w z).price
      = productPrice w (LineItem.save w z).productId * (LineItem.save w z).quantity := rfl

def exLiSmall : LineItem :=
  { id := 9, productId := 0, quantity := 5, price := 0, cart := none, order := none }

/-- Witness for C9 at the one-item shop state. -/
theorem C9_min_quantity_clamp_witness :
    qtyOK exWorld1
    ∧ (exLiSmall.quantity < 1000 → (LineItem.save exWorld1 exLiSmall).quantity = 1000)
    ∧ (1000 ≤ exLiSmall.quantity
        → (LineItem.save exWorld1 exLiSmall).quantity = exLiSmall.quantity)
    ∧ qtyOK (Cart.add_line_item exWorld1 1 0 5)
    ∧ qtyOK (Cart.update_line_item exWorld1 1 0 5)
    ∧ qtyOK (Cart.remove_line_item exWorld1 1 2)
    ∧ qtyOK (Cart.empty_cart exWorld1 1)
    ∧ qtyOK (Cart.make_order exWorld1 1).2
    ∧ qtyOK (LineItem.resave exWorld1 2) := by
  have hq : qtyOK exWorld1 := by
    simp only [qtyOK]
    decide
  have h := C9_min_quantity_clamp exWorld1 exLiSmall 1 0 2 5 hq
  exact ⟨hq, h.1, h.2.1, h.2.2.1, h.2.2.2.1, h.2.2.2.2.1, h.2.2.2.2.2.1,
    h.2.2.2.2.2.2.1, h.2.2.2.2.2.2.2⟩

/-- C10: every persisted line item's `price` is the extended price — after
`LineItem.save` the stored price is the product's current unit price times the
clamped quantity — and every cart/order operation (which holds the product
table fixed) preserves the invariant that each persisted line item's price is
its product's current unit price times its quantity, so cart and order totals
sum extended prices. -/
theorem C10_extended_price (w : World) (li : LineItem) (cid pid liId : Nat) (q : Int)
    (hp : pricesOK w) :
    ((LineItem.save w li).price
        = productPrice w li.productId * (if li.quantity < 1000 then 1000 else li.quantity))
    ∧ pricesOK (Cart.add_line_item w cid pid q)
    ∧ pricesOK (Cart.update_line_item w cid pid q)
    ∧ pricesOK (Cart.remove_line_item w cid liId)
    ∧ pricesOK (Cart.empty_cart w cid)
    ∧ pricesOK (Cart.make_order w cid).2
    ∧ pricesOK (LineItem.resave w liId) := by
  refine ⟨rfl, ?_, ?_, ?_, ?_, ?_, ?_⟩
  · unfold Cart.add_line_item
    split
    · exact hp
    · split
      · unfold pricesOK
        intro x hx
        rw [productPrice_congr _ w _ (by simp)]
        simp only [cart_save_items, setItem_items] at hx
        rcases List.mem_map.mp hx with ⟨y, hy, rfl⟩
        split
        · exact LineItem.save_synced w _
        · exact hp y hy
      · split
        · exact hp
        · unfold pricesOK
          intro x hx
          rw [productPrice_congr _ w _ (by simp)]
          simp only [cart_save_items, setItem_items] at hx
          rcases List.mem_map.mp hx with ⟨y, hy, rfl⟩
          split
          · rw [LineItem.save_congr _ w _ rfl]
            exact LineItem.save_synced w _
          · rcases List.mem_append.mp hy with hy1 | hy2
            · exact hp y hy1
            · have hy2x : y = LineItem.save w
                  { id := w.nextId, productId := pid, quantity := 1000, price := 0,
                    cart := some cid, order := none } := by simpa using hy2
              rw [hy2x]
              exact LineItem.save_synced w _
  · unfold Cart.update_line_item
    split
    · exact hp
    · split
      · exact hp
      · split
        · unfold pricesOK
          intro x hx
          rw [productPrice_congr _ w _ (by simp)]
          simp only [cart_save_items, setItem_items] at hx
          rcases List.mem_map.mp hx with ⟨y, hy, rfl⟩
          split
          · exact LineItem.save_synced w _
          · exact hp y hy
        · unfold pricesOK
          intro x hx
          rw [productPrice_congr _ w _ (by simp)]
          simp only [cart_save_items, setItem_items] at hx
          rcases List.mem_map.mp hx with ⟨y, hy, rfl⟩
          split
          · rw [LineItem.save_congr _ w _ rfl]
            exact LineItem.save_synced w _
          · rcases List.mem_append.mp hy with hy1 | hy2
            · exact hp y hy1
            · have hy2x : y = LineItem.save w
                  { id := w.nextId, productId := pid, quantity := 1000, price := 0,
                    cart := some cid, order := none } := by simpa using hy2
              rw [hy2x]
              exact LineItem.save_synced w _
  · unfold Cart.remove_line_item
    split
    · exact hp
    · unfold pricesOK
      intro x hx
      rw [productPrice_congr _ w _ (by simp)]
      simp only [cart_save_items] at hx
      exact hp x (List.mem_of_mem_filter hx)
  · unfold Cart.empty_cart
    split
    · exact hp
    · unfold pricesOK
      intro x hx
      rw [productPrice_congr _ w _ (by simp)]
      simp only [cart_save_items] at hx
      exact hp x (List.mem_of_mem_filter hx)
  · unfold Cart.make_order
    split
    · exact hp
    · split
      · exact hp
      · unfold pricesOK
        intro x hx
        rw [productPrice_congr _ w _ (by simp)]
        simp only [cart_save_items, order_save_items, moveItems_items,
          add_comment_items, order_create_items] at hx
        rcases List.mem_map.mp hx with ⟨y, hy, rfl⟩
        split
        · have hsc : ∀ z, LineItem.save
              (Order.add_comment (Order.create w).2 (Order.create w).1.id) z
              = LineItem.save w z := fun z => LineItem.save_congr _ w z rfl
          rw [hsc]
          exact LineItem.save_synced w _
        · exact hp y hy
  · unfold LineItem.resave
    split
    · unfold pricesOK
      intro x hx
      rw [productPrice_congr _ w _ (by simp)]
      simp only [setItem_items] at hx
      rcases List.mem_map.mp hx with ⟨y, hy, rfl⟩
      split
      · exact LineItem.save_synced w _
      · exact hp y hy
    · exact hp

/-- Witness for C10 at the one-item shop state. -/
theorem C10_extended_price_witness :
    pricesOK exWorld1
    ∧ ((LineItem.save exWorld1 exLiSmall).price
        = productPrice exWorld1 exLiSmall.productId
            * (if exLiSmall.quantity < 1000 then 1000 else exLiSmall.quantity))
    ∧ pricesOK (Cart.add_line_item exWorld1 1 0 5)
    ∧ pricesOK (Cart.update_line_item exWorld1 1 0 5)
    ∧ pricesOK (Cart.remove_line_item exWorld1 1 2)
    ∧ pricesOK (Cart.empty_cart exWorld1 1)
    ∧ pricesOK (Cart.make_order exWorld1 1).2
    ∧ pricesOK (LineItem.resave exWorld1 2) := by
  have hp : pricesOK exWorld1 := by
    simp only [pricesOK]
    decide
  have h := C10_extended_price exWorld1 exLiSmall 1 0 2 5 hp
  exact ⟨hp, h.1, h.2.1, h.2.2.1, h.2.2.2.1, h.2.2.2.2.1, h.2.2.2.2.2.1, h.2.2.2.2.2.2⟩

def exCart2000 : Cart := { id := 1, total_price := 2000, customerAccount := none }

def exLi : LineItem :=
  { id := 2, productId := 0, quantity := 1000, price := 2000, cart := some 1, order := none }

/-- Counterexample to C3 as stated: with quantity 5 < 1000 and a cart that
already holds a line item for the product, `Cart.add_line_item` does not
abort — the item's quantity grows from 1000 to 1005 and the cart's
`total_price` changes from 2000 to 2010. -/
theorem C3_counterexample :
    (5 : Int) < 1000
    ∧ (itemsOfCart exWorld1.items 1).map LineItem.quantity = [1000]
    ∧ (getCart? exWorld1 1).map Cart.total_price = some 2000
    ∧ (itemsOfCart (Cart.add_line_item exWorld1 1 0 5).items 1).map LineItem.quantity = [1005]
    ∧ (getCart? (Cart.add_line_item exWorld1 1 0 5) 1).map Cart.total_price = some 2010 := by
  decide

/-- C3 amended: for a quantity below 1000, `Cart.update_line_item` always
aborts leaving the world unchanged, and `Cart.add_line_item` aborts — leaving
the line item and cart tables unchanged — only when the cart holds no line
item for the product; when such a line item exists, `Cart.add_line_item`
instead adds the quantity to it (re-clamping at 1000) and re-saves, ignoring
the guard. -/
theorem C3_amended_min_quantity_guard (w : World) (cid pid : Nat) (q : Int) (hq : q < 1000) :
    Cart.update_line_item w cid pid q = w
    ∧ (w.items.find? (fun x => x.productId == pid && x.cart == some cid) = none →
        (Cart.add_line_item w cid pid q).items = w.items
        ∧ (Cart.add_line_item w cid pid q).carts = w.carts)
    ∧ (∀ c li2, getCart? w cid = some c →
        w.items.find? (fun x => x.productId == pid && x.cart == some cid) = some li2 →
        (Cart.add_line_item w cid pid q).items
          = w.items.map (fun x => if x.id = li2.id then
              LineItem.save w { li2 with quantity := li2.quantity + q } else x)) := by
  refine ⟨?_, ?_, ?_⟩
  · unfold Cart.update_line_item
    rw [if_pos hq]
  · intro hfind
    unfold Cart.add_line_item
    cases hgc : getCart? w cid with
    | none => exact ⟨rfl, rfl⟩
    | some c =>
      rw [hfind]
      dsimp only
      rw [if_pos hq]
      exact ⟨rfl, rfl⟩
  · intro c li2 hgc hfind
    unfold Cart.add_line_item
    rw [hgc, hfind]
    simp only [cart_save_items, setItem_items, LineItem.save_id]

/-- Witness for C3 amended: the update abort, the add abort on a fresh
product, and the add update on an already-present product, all at concrete
states. -/
theorem C3_amended_min_quantity_guard_witness :
    ((5 : Int) < 1000)
    ∧ Cart.update_line_item exWorld1 1 0 5 = exWorld1
    ∧ ((Cart.add_line_item exWorld1 1 7 5).items = exWorld1.items
        ∧ (Cart.add_line_item exWorld1 1 7 5).carts = exWorld1.carts)
    ∧ (Cart.add_line_item exWorld1 1 0 5).items
        = exWorld1.items.map (fun x => if x.id = exLi.id then
            LineItem.save exWorld1 { exLi with quantity := exLi.quantity + 5 } else x) :=
  ⟨by decide,
   (C3_amended_min_quantity_guard exWorld1 1 0 5 (by decide)).1,
   (C3_amended_min_quantity_guard exWorld1 1 7 5 (by decide)).2.1 (by decide),
   (C3_amended_min_quantity_guard exWorld1 1 0 5 (by decide)).2.2 exCart2000 exLi
     (by decide) (by decide)⟩

/-- The candidate reference strings are pairwise distinct (their lengths
differ). -/
theorem refCandidate_inj : Function.Injective (fun k => String.mk (List.replicate (k + 1) 'R')) := by
  intro a b h
  have hl := congrArg String.length h
  simp only [String.length_mk, List.length_replicate] at hl
  omega

/-- Pigeonhole: among `refs.length + 1` distinct candidates, one is unused. -/
theorem exists_fresh_candidate (refs : List String) :
    ∃ cand ∈ (List.range (refs.length + 1)).map
        (fun k => String.mk (List.replicate (k + 1) 'R')), cand ∉ refs := by
  by_contra hall
  push_neg at hall
  have hnodup : ((List.range (refs.length + 1)).map
      (fun k => String.mk (List.replicate (k + 1) 'R'))).Nodup :=
    List.Nodup.map refCandidate_inj (List.nodup_range _)
  have hsub : ((List.range (refs.length + 1)).map
      (fun k => String.mk (List.replicate (k + 1) 'R'))).toFinset ⊆ refs.toFinset := by
    intro x hx
    exact List.mem_toFinset.mpr (hall x (List.mem_toFinset.mp hx))
  have h1 : ((List.range (refs.length + 1)).map
      (fun k => String.mk (List.replicate (k + 1) 'R'))).toFinset.card = refs.length + 1 := by
    rw [List.toFinset_card_of_nodup hnodup]
    simp
  have h2 := Finset.card_le_card hsub
  have h3 := List.toFinset_card_le refs
  omega

/-- The generated reference number is used by no existing order. -/
theorem unique_ref_not_mem (refs : List String) : unique_ref_number_generator refs ∉ refs := by
  obtain ⟨cand, hcmem, hcnot⟩ := exists_fresh_candidate refs
  unfold unique_ref_number_generator
  cases hfil : ((List.range (refs.length + 1)).map
      (fun k => String.mk (List.replicate (k + 1) 'R'))).filter
      (fun r => !(refs.contains r)) with
  | nil =>
    exfalso
    have hcand : cand ∈ ((List.range (refs.length + 1)).map
        (fun k => String.mk (List.replicate (k + 1) 'R'))).filter
        (fun r => !(refs.contains r)) :=
      List.mem_filter.mpr ⟨hcmem, by simpa using hcnot⟩
    rw [hfil] at hcand
    exact absurd hcand (List.not_mem_nil cand)
  | cons a t =>
    have ha : a ∈ ((List.range (refs.length + 1)).map
        (fun k => String.mk (List.replicate (k + 1) 'R'))).filter
        (fun r => !(refs.contains r)) := by
      rw [hfil]
      exact List.mem_cons_self a t
    have hpa := (List.mem_filter.mp ha).2
    rw [List.headD_cons]
    simpa using hpa

/-- The generated reference number is never the empty string. -/
theorem unique_ref_ne_empty (refs : List String) : unique_ref_number_generator refs ≠ "" := by
  unfold unique_ref_number_generator
  cases hfil : ((List.range (refs.length + 1)).map
      (fun k => String.mk (List.replicate (k + 1) 'R'))).filter
      (fun r => !(refs.contains r)) with
  | nil => decide
  | cons a t =>
    rw [List.headD_cons]
    have ha : a ∈ ((List.range (refs.length + 1)).map
        (fun k => String.mk (List.replicate (k + 1) 'R'))).filter
        (fun r => !(refs.contains r)) := by
      rw [hfil]
      exact List.mem_cons_self a t
    rcases List.mem_map.mp (List.mem_filter.mp ha).1 with ⟨k, _, rfl⟩
    intro hcon
    have hl := congrArg String.length hcon
    simp [String.length_mk] at hl

/-- C8: `Order.save` on an order with an empty `ref_number` populates it with
a freshly generated reference number used by no existing order, and fills an
empty `slug` with the slugified `ref_number`; on an order whose `ref_number`
and `slug` are already set, re-saving leaves both unchanged.  In all cases the
saved row is persisted with exactly the fields `Order.save_fields` computes. -/
theorem C8_order_ref_and_slug (w : World) (o : Order) :
    (o.ref_number = "" →
      (Order.save_fields w o).ref_number = unique_ref_number_generator (refNumbers w)
      ∧ (∀ o2 ∈ w.orders, (Order.save_fields w o).ref_number ≠ o2.ref_number))
    ∧ (o.ref_number = "" → o.slug = "" →
      (Order.save_fields w o).slug = slugify (Order.save_fields w o).ref_number)
    ∧ (o.ref_number ≠ "" → o.slug ≠ "" →
      (Order.save_fields w o).ref_number = o.ref_number
      ∧ (Order.save_fields w o).slug = o.slug)
    ∧ getOrder? (Order.save w o) o.id = some (Order.save_fields w o) := by
  refine ⟨?_, ?_, ?_, getOrder?_save w o⟩
  · intro h
    constructor
    · simp [Order.save_fields, h]
    · intro o2 ho2 heq
      have hr : (Order.save_fields w o).ref_number
          = unique_ref_number_generator (refNumbers w) := by
        simp [Order.save_fields, h]
      rw [hr] at heq
      apply unique_ref_not_mem (refNumbers w)
      rw [heq]
      exact List.mem_map_of_mem Order.ref_number ho2
  · intro h hs
    simp [Order.save_fields, h, hs]
  · intro h hs
    constructor
    · simp [Order.save_fields, h]
    · simp [Order.save_fields, h, hs]

def exWorldO : World := (Cart.make_order exWorld1 1).2

def exOrderNew : Order :=
  { id := 10, total_price := 0, ref_number := "", slug := "", customerAccount := none }

def exOrderOld : Order :=
  { id := 3, total_price := 2000, ref_number := "R", slug := "r", customerAccount := none }

/-- Witness for C8: a fresh order in a world that already holds one order gets
the generated reference number "RR" and its slug; an already-populated order is
re-saved unchanged. -/
theorem C8_order_ref_and_slug_witness :
    (exOrderNew.ref_number = ""
      ∧ (Order.save_fields exWorldO exOrderNew).ref_number
          = unique_ref_number_generator (refNumbers exWorldO)
      ∧ (∀ o2 ∈ exWorldO.orders,
          (Order.save_fields exWorldO exOrderNew).ref_number ≠ o2.ref_number)
      ∧ (Order.save_fields exWorldO exOrderNew).slug
          = slugify (Order.save_fields exWorldO exOrderNew).ref_number)
    ∧ (exOrderOld.ref_number ≠ "" ∧ exOrderOld.slug ≠ ""
      ∧ (Order.save_fields exWorldO exOrderOld).ref_number = exOrderOld.ref_number
      ∧ (Order.save_fields exWorldO exOrderOld).slug = exOrderOld.slug)
    ∧ getOrder? (Order.save exWorldO exOrderNew) exOrderNew.id
        = some (Order.save_fields exWorldO exOrderNew) := by
  have h := C8_order_ref_and_slug exWorldO exOrderNew
  have h2 := C8_order_ref_and_slug exWorldO exOrderOld
  refine ⟨⟨rfl, (h.1 rfl).1, (h.1 rfl).2, h.2.1 rfl rfl⟩,
    ⟨by decide, by decide, (h2.2.2.1 (by decide) (by decide)).1,
      (h2.2.2.1 (by decide) (by decide)).2⟩, h.2.2.2⟩

theorem getCart?_id (w : World) (cid : Nat) (c : Cart) (h : getCart? w cid = some c) :
    c.id = cid := by
  simpa using List.find?_some h

theorem getOrder?_id (w : World) (oid : Nat) (o : Order) (h : getOrder? w oid = some o) :
    o.id = oid := by
  simpa using List.find?_some h

/-- After `Cart.save`, every cart row carrying the saved cart's id stores
exactly the sum over the cart's line items. -/
theorem cartTotalOK_after_save (w : World) (c : Cart) :
    cartTotalOK (Cart.save w c) c.id := by
  intro x hx hxid
  rw [calculate_total_congr _ w _ (by simp)]
  unfold Cart.save at hx
  dsimp only at hx
  by_cases hany : w.carts.any (fun y => y.id == c.id) = true
  · rw [if_pos (by simpa using hany)] at hx
    rcases List.mem_map.mp hx with ⟨y, hy, rfl⟩
    by_cases hid : y.id = c.id
    · rw [if_pos (by simpa using hid)]
    · exfalso
      revert hxid
      rw [if_neg (by simpa using hid)]
      exact hid
  · rw [if_neg (by simpa using hany)] at hx
    rcases List.mem_append.mp hx with hy1 | hy2
    · exfalso
      rw [List.any_eq_true] at hany
      push_neg at hany
      exact hany x hy1 (by simpa using hxid)
    · have hx2 : x = { c with total_price := Cart.calculate_total_price w c.id } := by
        simpa using hy2
      rw [hx2]

/-- After `Order.save`, every order row carrying the saved order's id stores
exactly the sum over the order's line items. -/
theorem orderTotalOK_after_save (w : World) (o : Order) :
    orderTotalOK (Order.save w o) o.id := by
  intro x hx hxid
  rw [order_calculate_total_congr _ w _ (by simp)]
  unfold Order.save at hx
  dsimp only at hx
  have hid2 : (Order.save_fields w o).id = o.id := rfl
  by_cases hany : w.orders.any (fun y => y.id == (Order.save_fields w o).id) = true
  · rw [if_pos (by simpa using hany)] at hx
    rcases List.mem_map.mp hx with ⟨y, hy, rfl⟩
    by_cases hid : y.id = (Order.save_fields w o).id
    · rw [if_pos (by simpa using hid)]
      unfold Order.save_fields
      simp
    · exfalso
      revert hxid
      rw [if_neg (by simpa using hid)]
      rw [hid2] at hid
      exact hid
  · rw [if_neg (by simpa using hany)] at hx
    rcases List.mem_append.mp hx with hy1 | hy2
    · exfalso
      rw [List.any_eq_true] at hany
      push_neg at hany
      refine hany x hy1 ?_
      rw [hid2]
      simpa using hxid
    · have hx2 : x = Order.save_fields w o := by simpa using hy2
      rw [hx2]
      unfold Order.save_fields
      simp

/-- Deleting every line item of the cart makes its computed total zero. -/
theorem itemsOfCart_filter_not (items : List LineItem) (cid : Nat) :
    itemsOfCart (items.filter (fun li => !(li.cart == some cid))) cid = [] := by
  unfold itemsOfCart
  rw [List.filter_eq_nil_iff]
  intro a ha
  have h2 := (List.mem_filter.mp ha).2
  simp at h2
  simp [h2]

/-- C4: after each operation that persists a cart or an order — adding,
updating or removing a line item, emptying the cart, placing an order, or
re-saving an order — the persisted `total_price` of the cart (respectively
order) the operation acts on equals the sum of the prices of the line items
then attached to it, and an emptied cart's stored total is 0. -/
theorem C4_totals_recomputed (w : World) (cid pid liId oid : Nat) (q : Int)
    (hc : cartTotalOK w cid) (ho : orderTotalOK w oid) :
    cartTotalOK (Cart.add_line_item w cid pid q) cid
    ∧ cartTotalOK (Cart.update_line_item w cid pid q) cid
    ∧ cartTotalOK (Cart.remove_line_item w cid liId) cid
    ∧ cartTotalOK (Cart.empty_cart w cid) cid
    ∧ cartTotalOK (Cart.make_order w cid).2 cid
    ∧ (∀ r, (Cart.make_order w cid).1 = some r → orderTotalOK (Cart.make_order w cid).2 r)
    ∧ orderTotalOK (Order.resave w oid) oid
    ∧ (∀ x ∈ (Cart.empty_cart w cid).carts, x.id = cid → x.total_price = 0) := by
  refine ⟨?_, ?_, ?_, ?_, ?_, ?_, ?_, ?_⟩
  · unfold Cart.add_line_item
    cases hgc : getCart? w cid with
    | none => exact hc
    | some c =>
      have hcid : c.id = cid := getCart?_id w cid c hgc
      subst hcid
      cases hf : w.items.find? (fun x => x.productId == pid && x.cart == some c.id) with
      | some li => exact cartTotalOK_after_save _ c
      | none =>
        dsimp only
        by_cases hq : q < 1000
        · rw [if_pos hq]
          exact hc
        · rw [if_neg hq]
          exact cartTotalOK_after_save _ c
  · unfold Cart.update_line_item
    by_cases hq : q < 1000
    · rw [if_pos hq]
      exact hc
    · rw [if_neg hq]
      cases hgc : getCart? w cid with
      | none => exact hc
      | some c =>
        have hcid : c.id = cid := getCart?_id w cid c hgc
        subst hcid
        cases hf : w.items.find? (fun x => x.productId == pid && x.cart == some c.id) with
        | some li => exact cartTotalOK_after_save _ c
        | none => exact cartTotalOK_after_save _ c
  · unfold Cart.remove_line_item
    cases hgc : getCart? w cid with
    | none => exact hc
    | some c =>
      have hcid : c.id = cid := getCart?_id w cid c hgc
      subst hcid
      exact cartTotalOK_after_save _ c
  · unfold Cart.empty_cart
    cases hgc : getCart? w cid with
    | none => exact hc
    | some c =>
      have hcid : c.id = cid := getCart?_id w cid c hgc
      subst hcid
      exact cartTotalOK_after_save _ c
  · cases hgc : getCart? w cid with
    | none =>
      unfold Cart.make_order
      rw [hgc]
      exact hc
    | some c =>
      have hcid : c.id = cid := getCart?_id w cid c hgc
      subst hcid
      by_cases h0 : c.total_price = 0
      · rw [C2_make_order_zero_total_aborts w c.id c hgc h0]
        exact hc
      · rw [make_order_eq w c.id c hgc h0]
        exact cartTotalOK_after_save _ c
  · intro r hr
    cases hgc : getCart? w cid with
    | none =>
      unfold Cart.make_order at hr
      rw [hgc] at hr
      cases hr
    | some c =>
      by_cases h0 : c.total_price = 0
      · rw [C2_make_order_zero_total_aborts w cid c hgc h0] at hr
        cases hr
      · rw [make_order_eq w cid c hgc h0] at hr ⊢
        have hrid : r = w.nextId := by
          simpa using hr.symm
        subst hrid
        exact orderTotalOK_after_save _
          { (Order.create w).1 with customerAccount := c.customerAccount }
  · unfold Order.resave
    cases hgo : getOrder? w oid with
    | none => exact ho
    | some o =>
      have hoid : o.id = oid := getOrder?_id w oid o hgo
      subst hoid
      exact orderTotalOK_after_save w o
  · intro x hx hxid
    revert hx
    unfold Cart.empty_cart
    cases hgc : getCart? w cid with
    | none =>
      intro hx
      exfalso
      rw [getCart?, List.find?_eq_none] at hgc
      exact hgc x hx (by simpa using hxid)
    | some c =>
      intro hx
      have hcid : c.id = cid := getCart?_id w cid c hgc
      have hsv := cartTotalOK_after_save
        { w with items := w.items.filter (fun li => !(li.cart == some cid)) } c x hx
        (by rw [hcid]; exact hxid)
      rw [hsv]
      rw [calculate_total_congr _
        { w with items := w.items.filter (fun li => !(li.cart == some cid)) } _ (by simp)]
      unfold Cart.calculate_total_price
      rw [hcid]
      rw [itemsOfCart_filter_not]
      rfl

/-- Witness for C4 at the one-item shop state. -/
theorem C4_totals_recomputed_witness :
    cartTotalOK exWorld1 1 ∧ orderTotalOK exWorld1 3
    ∧ cartTotalOK (Cart.add_line_item exWorld1 1 0 1000) 1
    ∧ cartTotalOK (Cart.update_line_item exWorld1 1 0 1000) 1
    ∧ cartTotalOK (Cart.remove_line_item exWorld1 1 2) 1
    ∧ cartTotalOK (Cart.empty_cart exWorld1 1) 1
    ∧ cartTotalOK (Cart.make_order exWorld1 1).2 1
    ∧ (∀ r, (Cart.make_order exWorld1 1).1 = some r
        → orderTotalOK (Cart.make_order exWorld1 1).2 r)
    ∧ orderTotalOK (Order.resave exWorld1 3) 3
    ∧ (∀ x ∈ (Cart.empty_cart exWorld1 1).carts, x.id = 1 → x.total_price = 0) := by
  have hc : cartTotalOK exWorld1 1 := by
    simp only [cartTotalOK]
    decide
  have ho : orderTotalOK exWorld1 3 := by
    simp only [orderTotalOK]
    decide
  have h := C4_totals_recomputed exWorld1 1 0 2 3 1000 hc ho
  exact ⟨hc, ho, h.1, h.2.1, h.2.2.1, h.2.2.2.1, h.2.2.2.2.1, h.2.2.2.2.2.1,
    h.2.2.2.2.2.2.1, h.2.2.2.2.2.2.2⟩

/-- C6: every operation on line items — adding, updating, placing an order,
removing, emptying — preserves the invariant that each persisted line item is
attached to exactly one of a cart or an order, and every line item it creates
satisfies it. -/
theorem C6_exactly_one_owner (w : World) (cid pid liId : Nat) (q : Int) (h : itemsOK w) :
    itemsOK (Cart.add_line_item w cid pid q)
    ∧ itemsOK (Cart.update_line_item w cid pid q)
    ∧ itemsOK (Cart.make_order w cid).2
    ∧ itemsOK (Cart.remove_line_item w cid liId)
    ∧ itemsOK (Cart.empty_cart w cid) := by
  refine ⟨?_, ?_, ?_, ?_, ?_⟩
  · unfold Cart.add_line_item
    cases hgc : getCart? w cid with
    | none => exact h
    | some c =>
      cases hf : w.items.find? (fun x => x.productId == pid && x.cart == some cid) with
      | some li =>
        have hmem := List.mem_of_find?_eq_some hf
        have hcart : li.cart = some cid := by
          have hp := List.find?_some hf
          simp at hp
          exact hp.2
        have hord : li.order = none := by
          rcases h li hmem with ⟨_, h2⟩ | ⟨h1, _⟩
          · exact h2
          · rw [h1] at hcart
            cases hcart
        intro x hx
        simp only [cart_save_items, setItem_items] at hx
        rcases List.mem_map.mp hx with ⟨y, hy, rfl⟩
        split
        · left
          constructor
          · rw [LineItem.save_cart]
            simp [hcart]
          · rw [LineItem.save_order]
            simpa using hord
        · exact h y hy
      | none =>
        dsimp only
        by_cases hq : q < 1000
        · rw [if_pos hq]
          exact h
        · rw [if_neg hq]
          intro x hx
          simp only [cart_save_items, setItem_items] at hx
          rcases List.mem_map.mp hx with ⟨y, hy, rfl⟩
          split
          · left
            constructor
            · rw [LineItem.save_cart]
              simp
            · rw [LineItem.save_order]
          · rcases List.mem_append.mp hy with hy1 | hy2
            · exact h y hy1
            · have hy2x : y = LineItem.save w
                  { id := w.nextId, productId := pid, quantity := 1000, price := 0,
                    cart := some cid, order := none } := by simpa using hy2
              rw [hy2x]
              left
              constructor
              · rw [LineItem.save_cart]
                simp
              · rw [LineItem.save_order]
  · unfold Cart.update_line_item
    by_cases hq : q < 1000
    · rw [if_pos hq]
      exact h
    · rw [if_neg hq]
      cases hgc : getCart? w cid with
      | none => exact h
      | some c =>
        cases hf : w.items.find? (fun x => x.productId == pid && x.cart == some cid) with
        | some li =>
          have hmem := List.mem_of_find?_eq_some hf
          have hcart : li.cart = some cid := by
            have hp := List.find?_some hf
            simp at hp
            exact hp.2
          have hord : li.order = none := by
            rcases h li hmem with ⟨_, h2⟩ | ⟨h1, _⟩
            · exact h2
            · rw [h1] at hcart
              cases hcart
          intro x hx
          simp only [cart_save_items, setItem_items] at hx
          rcases List.mem_map.mp hx with ⟨y, hy, rfl⟩
          split
          · left
            constructor
            · rw [LineItem.save_cart]
              simp [hcart]
            · rw [LineItem.save_order]
              simpa using hord
          · exact h y hy
        | none =>
          intro x hx
          simp only [cart_save_items, setItem_items] at hx
          rcases List.mem_map.mp hx with ⟨y, hy, rfl⟩
          split
          · left
            constructor
            · rw [LineItem.save_cart]
              simp
            · rw [LineItem.save_order]
          · rcases List.mem_append.mp hy with hy1 | hy2
            · exact h y hy1
            · have hy2x : y = LineItem.save w
                  { id := w.nextId, productId := pid, quantity := 1000, price := 0,
                    cart := some cid, order := none } := by simpa using hy2
              rw [hy2x]
              left
              constructor
              · rw [LineItem.save_cart]
                simp
              · rw [LineItem.save_order]
  · cases hgc : getCart? w cid with
    | none =>
      unfold Cart.make_order
      rw [hgc]
      exact h
    | some c =>
      by_cases h0 : c.total_price = 0
      · rw [C2_make_order_zero_total_aborts w cid c hgc h0]
        exact h
      · rw [make_order_eq w cid c hgc h0]
        intro x hx
        simp only [cart_save_items, order_save_items, moveItems_items,
          add_comment_items, order_create_items] at hx
        rcases List.mem_map.mp hx with ⟨y, hy, rfl⟩
        split
        · right
          constructor
          · rw [LineItem.save_cart]
          · rw [LineItem.save_order]
            simp
        · exact h y hy
  · unfold Cart.remove_line_item
    cases hgc : getCart? w cid with
    | none => exact h
    | some c =>
      intro x hx
      simp only [cart_save_items] at hx
      exact h x (List.mem_of_mem_filter hx)
  · unfold Cart.empty_cart
    cases hgc : getCart? w cid with
    | none => exact h
    | some c =>
      intro x hx
      simp only [cart_save_items] at hx
      exact h x (List.mem_of_mem_filter hx)

/-- Witness for C6 at the one-item shop state. -/
theorem C6_exactly_one_owner_witness :
    itemsOK exWorld1
    ∧ itemsOK (Cart.add_line_item exWorld1 1 0 1000)
    ∧ itemsOK (Cart.update_line_item exWorld1 1 0 1000)
    ∧ itemsOK (Cart.make_order exWorld1 1).2
    ∧ itemsOK (Cart.remove_line_item exWorld1 1 2)
    ∧ itemsOK (Cart.empty_cart exWorld1 1) := by
  have h : itemsOK exWorld1 := by
    simp only [itemsOK]
    decide
  have hall := C6_exactly_one_owner exWorld1 1 0 2 1000 h
  exact ⟨h, hall.1, hall.2.1, hall.2.2.1, hall.2.2.2.1, hall.2.2.2.2⟩

/-- Moving the cart's items to a fresh order makes the order's item list
exactly the saved images of the cart's former items, in order. -/
theorem itemsOfOrder_moveItems (items : List LineItem) (w2 : World) (cid oid : Nat)
    (hfresh : ∀ li ∈ items, li.order ≠ some oid) :
    itemsOfOrder (items.map (fun li =>
        if li.cart = some cid then LineItem.save w2 { li with order := some oid, cart := none }
        else li)) oid
      = (itemsOfCart items cid).map
          (fun li => LineItem.save w2 { li with order := some oid, cart := none }) := by
  unfold itemsOfOrder itemsOfCart
  induction items with
  | nil => rfl
  | cons a t ih =>
    have hfa := hfresh a (List.mem_cons_self a t)
    have iht := ih (fun x hx => hfresh x (List.mem_cons_of_mem a hx))
    by_cases hac : a.cart = some cid
    · rw [List.map_cons, if_pos hac, List.filter_cons, if_pos (by simp),
        List.filter_cons, if_pos (by simp [hac]), List.map_cons]
      rw [iht]
    · rw [List.map_cons, if_neg hac, List.filter_cons, if_neg (by simpa using hfa),
        List.filter_cons, if_neg (by simpa using hac)]
      exact iht

/-- After `moveItems`, the cart holds no line items. -/
theorem itemsOfCart_moveItems (items : List LineItem) (w2 : World) (cid oid : Nat) :
    itemsOfCart (items.map (fun li =>
        if li.cart = some cid then LineItem.save w2 { li with order := some oid, cart := none }
        else li)) cid = [] := by
  unfold itemsOfCart
  rw [List.filter_eq_nil_iff]
  intro a ha
  rcases List.mem_map.mp ha with ⟨y, hy, rfl⟩
  by_cases hyc : y.cart = some cid
  · rw [if_pos hyc]
    simp
  · rw [if_neg hyc]
    simpa using hyc

/-- Re-linking items to an order does not change their prices, hence not the
sum. -/
theorem sumPrices_map_move (l : List LineItem) (oid : Nat) :
    sumPrices (l.map (fun li => { li with cart := none, order := some oid })) = sumPrices l := by
  unfold sumPrices
  rw [List.map_map]
  rfl

def exWorldPrice3 : World :=
  Product.save exWorld1 { id := 0, name := "p", slug := "p", price := 3 }

/-- Counterexample to C1 as stated: after the product's unit price changes
from 2 to 3, the cart still stores total 2000 (non-zero), but the order
`Cart.make_order` creates re-saves each line item at the new unit price and
gets total 3000, not the cart's prior 2000. -/
theorem C1_counterexample :
    (getCart? exWorldPrice3 1).map Cart.total_price = some 2000
    ∧ ((2000 : Int) ≠ 0)
    ∧ (Cart.make_order exWorldPrice3 1).1 = some 3
    ∧ (getOrder? (Cart.make_order exWorldPrice3 1).2 3).map Order.total_price = some 3000
    ∧ ((3000 : Int) ≠ 2000) := by
  decide

/-- C1 amended: for a cart with non-zero stored total in a well-formed state
whose cart line items are in sync with their products' current prices (and
whose stored total matches their sum), `Cart.make_order` returns a fresh
order whose line items are exactly the cart's former line items with `order`
set to the new order and `cart` nulled, whose total equals the cart's prior
stored total, and leaves the cart with no line items and stored total 0.
(Without the price-sync hypothesis the order's total is the re-computed sum
at the products' current prices, which can differ from the cart's prior
total.) -/
theorem C1_amended_make_order (w : World) (cid : Nat) (c : Cart)
    (hgc : getCart? w cid = some c)
    (hnz : ¬ c.total_price = 0)
    (hWF : WF w)
    (hsync : ∀ li ∈ itemsOfCart w.items cid,
        1000 ≤ li.quantity ∧ li.price = productPrice w li.productId * li.quantity)
    (htot : c.total_price = sumPrices (itemsOfCart w.items cid)) :
    (Cart.make_order w cid).1 = some w.nextId
    ∧ (getOrder? (Cart.make_order w cid).2 w.nextId).map Order.total_price
        = some c.total_price
    ∧ itemsOfOrder (Cart.make_order w cid).2.items w.nextId
        = (itemsOfCart w.items cid).map
            (fun li => { li with cart := none, order := some w.nextId })
    ∧ itemsOfCart (Cart.make_order w cid).2.items cid = []
    ∧ getCart? (Cart.make_order w cid).2 cid = some { c with total_price := 0 } := by
  have hcid : c.id = cid := getCart?_id w cid c hgc
  subst hcid
  have hfresh : ∀ li ∈ w.items, li.order ≠ some w.nextId := by
    intro li hli hcon
    have hb := (hWF.1 li hli).2.1
    rw [hcon] at hb
    simp at hb
  rw [make_order_eq w c.id c hgc hnz]
  set W2 := Order.add_comment (Order.create w).2 w.nextId with hW2
  set o2 : Order := { (Order.create w).1 with customerAccount := c.customerAccount } with ho2
  set W3 := moveItems W2 c.id w.nextId with hW3
  set W4 := Order.save W3 o2 with hW4
  have hW2items : W2.items = w.items := rfl
  have hgeq : ∀ li ∈ itemsOfCart w.items c.id,
      LineItem.save W2 { li with order := some w.nextId, cart := none }
        = { li with order := some w.nextId, cart := none } := by
    intro li hli
    apply LineItem.save_of_synced
    · exact (hsync li hli).1
    · show li.price = productPrice W2 li.productId * li.quantity
      rw [← productPrice_congr w W2 li.productId (by rw [hW2]; rfl)]
      exact (hsync li hli).2
  have hoi : itemsOfOrder W3.items w.nextId
      = (itemsOfCart w.items c.id).map
          (fun li => { li with cart := none, order := some w.nextId }) := by
    rw [hW3, moveItems_items, hW2items]
    rw [itemsOfOrder_moveItems w.items W2 c.id w.nextId hfresh]
    exact List.map_congr_left hgeq
  have hci : itemsOfCart W3.items c.id = [] := by
    rw [hW3, moveItems_items, hW2items]
    exact itemsOfCart_moveItems w.items W2 c.id w.nextId
  have htotW3 : Order.calculate_total_price W3 w.nextId = c.total_price := by
    unfold Order.calculate_total_price
    rw [hoi, sumPrices_map_move]
    exact htot.symm
  refine ⟨?_, ?_, ?_, ?_, ?_⟩
  · rfl
  · have h4 : getOrder? (Cart.save W4 c) w.nextId = some (Order.save_fields W3 o2) :=
      getOrder?_save W3 o2
    rw [h4]
    have h5 : (Order.save_fields W3 o2).total_price
        = Order.calculate_total_price W3 o2.id := by
      simp [Order.save_fields]
    have h6 : o2.id = w.nextId := rfl
    rw [h6] at h5
    simp only [Option.map_some']
    rw [h5, htotW3]
  · simp only [cart_save_items, hW4, order_save_items]
    exact hoi
  · simp only [cart_save_items, hW4, order_save_items]
    exact hci
  · have h7 := getCart?_save W4 c
    have hz : Cart.calculate_total_price W4 c.id = 0 := by
      rw [calculate_total_congr W4 W3 c.id (by rw [hW4]; rfl)]
      unfold Cart.calculate_total_price
      rw [hci]
      rfl
    rw [hz] at h7
    exact h7

/-- Witness for C1 amended at the in-sync one-item shop state. -/
theorem C1_amended_make_order_witness :
    getCart? exWorld1 1 = some exCart2000
    ∧ exCart2000.total_price ≠ 0
    ∧ WF exWorld1
    ∧ (Cart.make_order exWorld1 1).1 = some exWorld1.nextId
    ∧ (getOrder? (Cart.make_order exWorld1 1).2 exWorld1.nextId).map Order.total_price
        = some exCart2000.total_price
    ∧ itemsOfOrder (Cart.make_order exWorld1 1).2.items exWorld1.nextId
        = (itemsOfCart exWorld1.items 1).map
            (fun li => { li with cart := none, order := some exWorld1.nextId })
    ∧ itemsOfCart (Cart.make_order exWorld1 1).2.items 1 = []
    ∧ getCart? (Cart.make_order exWorld1 1).2 1 = some { exCart2000 with total_price := 0 } := by
  have hgc : getCart? exWorld1 1 = some exCart2000 := by decide
  have hWF : WF exWorld1 := by
    simp only [WF]
    decide
  have hsync : ∀ li ∈ itemsOfCart exWorld1.items 1,
      1000 ≤ li.quantity ∧ li.price = productPrice exWorld1 li.productId * li.quantity := by
    decide
  have h := C1_amended_make_order exWorld1 1 exCart2000 hgc (by decide) hWF hsync (by decide)
  exact ⟨hgc, by decide, hWF, h.1, h.2.1, h.2.2.1, h.2.2.2.1, h.2.2.2.2⟩

/-- `getOrder?` only depends on the order table. -/
theorem getOrder?_congr (w w2 : World) (oid : Nat) (h : w.orders = w2.orders) :
    getOrder? w oid = getOrder? w2 oid := by
  unfold getOrder?
  rw [h]

theorem add_line_item_orders (w : World) (cid pid : Nat) (q : Int) :
    (Cart.add_line_item w cid pid q).orders = w.orders := by
  unfold Cart.add_line_item
  split
  · rfl
  · split
    · rfl
    · split
      · rfl
      · rfl

theorem update_line_item_orders (w : World) (cid pid : Nat) (q : Int) :
    (Cart.update_line_item w cid pid q).orders = w.orders := by
  unfold Cart.update_line_item
  split
  · rfl
  · split
    · rfl
    · split
      · rfl
      · rfl

theorem remove_line_item_orders (w : World) (cid liId : Nat) :
    (Cart.remove_line_item w cid liId).orders = w.orders := by
  unfold Cart.remove_line_item
  split
  · rfl
  · rfl

theorem empty_cart_orders (w : World) (cid : Nat) :
    (Cart.empty_cart w cid).orders = w.orders := by
  unfold Cart.empty_cart
  split
  · rfl
  · rfl

/-- Distinct line item rows have distinct primary keys in a well-formed state. -/
theorem id_inj_of_WF (w : World) (hWF : WF w) :
    ∀ x ∈ w.items, ∀ y ∈ w.items, x.id = y.id → x = y := by
  intro x hx y hy hxy
  exact List.inj_on_of_nodup_map hWF.2.2.2 hx hy hxy

/-- Replacing (by primary key) a row that is not one of the order's items
leaves the order's item list unchanged. -/
theorem itemsOfOrder_replace_stable (items : List LineItem) (oid : Nat) (li2 : LineItem)
    (h : ∀ x ∈ items, x.order = some oid → x.id ≠ li2.id)
    (h2 : ¬ li2.order = some oid) :
    itemsOfOrder (items.map (fun x => if x.id = li2.id then li2 else x)) oid
      = itemsOfOrder items oid := by
  apply itemsOfOrder_map_stable
  intro x hx
  constructor
  · intro hxo
    rw [if_neg (h x hx hxo)]
  · intro hgx
    by_cases hxid : x.id = li2.id
    · rw [if_pos hxid] at hgx
      exact absurd hgx h2
    · rwa [if_neg hxid] at hgx

/-- `Order.save` of one order leaves lookups of a different order id
unchanged. -/
theorem getOrder?_save_other (w : World) (o2 : Order) (oid : Nat) (hne : o2.id ≠ oid) :
    getOrder? (Order.save w o2) oid = getOrder? w oid := by
  unfold getOrder? Order.save
  dsimp only
  have hid2 : (Order.save_fields w o2).id = o2.id := rfl
  split
  · rw [find?_map_replace]
    · cases hfind : w.orders.find? (fun x => x.id == oid) with
      | none => rfl
      | some y =>
        have hy : y.id = oid := by simpa using List.find?_some hfind
        simp only [Option.map_some']
        rw [if_neg (by rw [hy, hid2]; exact fun hcon => hne hcon.symm)]
    · intro x _
      by_cases hx : x.id = (Order.save_fields w o2).id
      · rw [if_pos hx, hx]
      · rw [if_neg hx]
  · rw [List.find?_append]
    cases hfind : w.orders.find? (fun x => x.id == oid) with
    | some y => rfl
    | none =>
      have hno : ((Order.save_fields w o2).id == oid) = false := by
        rw [hid2]
        simpa using hne
      simp [List.find?_cons, hno]

/-- C5 amended: an order's snapshot — its line item rows and its stored
total — is preserved by every cart operation (`remove_line_item` provided its
target is not one of the order's items), by product saves, and by re-saving
the order itself (its stored total is recomputed to the same sum); only a
direct `LineItem.save` on one of the order's items can change the snapshot,
because it re-derives the price from the product's current unit price. -/
theorem C5_amended_order_snapshot (w : World) (oid cid pid liId : Nat) (q : Int)
    (p : Product) (o : Order)
    (hWF : WF w) (hOK : itemsOK w) (hT : orderTotalOK w oid)
    (ho : getOrder? w oid = some o) :
    itemsOfOrder (Cart.add_line_item w cid pid q).items oid = itemsOfOrder w.items oid
    ∧ getOrder? (Cart.add_line_item w cid pid q) oid = some o
    ∧ itemsOfOrder (Cart.update_line_item w cid pid q).items oid = itemsOfOrder w.items oid
    ∧ getOrder? (Cart.update_line_item w cid pid q) oid = some o
    ∧ ((∀ li ∈ itemsOfOrder w.items oid, li.id ≠ liId) →
        itemsOfOrder (Cart.remove_line_item w cid liId).items oid = itemsOfOrder w.items oid)
    ∧ getOrder? (Cart.remove_line_item w cid liId) oid = some o
    ∧ itemsOfOrder (Cart.empty_cart w cid).items oid = itemsOfOrder w.items oid
    ∧ getOrder? (Cart.empty_cart w cid) oid = some o
    ∧ itemsOfOrder (Cart.make_order w cid).2.items oid = itemsOfOrder w.items oid
    ∧ getOrder? (Cart.make_order w cid).2 oid = some o
    ∧ itemsOfOrder (Product.save w p).items oid = itemsOfOrder w.items oid
    ∧ getOrder? (Product.save w p) oid = some o
    ∧ itemsOfOrder (Order.resave w oid).items oid = itemsOfOrder w.items oid
    ∧ (getOrder? (Order.resave w oid) oid).map Order.total_price = some o.total_price := by
  have hoid : o.id = oid := getOrder?_id w oid o ho
  have homem : o ∈ w.orders := List.mem_of_find?_eq_some ho
  have hoidlt : oid < w.nextId := by
    have hb := hWF.2.1 o homem
    rw [hoid] at hb
    exact hb
  have hinj := id_inj_of_WF w hWF
  refine ⟨?_, ?_, ?_, ?_, ?_, ?_, ?_, ?_, ?_, ?_, ?_, ?_, ?_, ?_⟩
  · unfold Cart.add_line_item
    cases hgc : getCart? w cid with
    | none => rfl
    | some c =>
      cases hf : w.items.find? (fun x => x.productId == pid && x.cart == some cid) with
      | some li =>
        have hmem := List.mem_of_find?_eq_some hf
        have hcart : li.cart = some cid := by
          have hp2 := List.find?_some hf
          simp at hp2
          exact hp2.2
        have hord : li.order = none := by
          rcases hOK li hmem with ⟨_, h2⟩ | ⟨h1, _⟩
          · exact h2
          · rw [h1] at hcart
            cases hcart
        simp only [cart_save_items, setItem_items]
        apply itemsOfOrder_replace_stable
        · intro x hx hxo hxid
          have hLid : (LineItem.save w
              { li with quantity := li.quantity + q }).id = li.id := rfl
          rw [hLid] at hxid
          have hxli : x = li := hinj x hx li hmem hxid
          rw [hxli, hord] at hxo
          cases hxo
        · rw [LineItem.save_order]
          show ¬ li.order = some oid
          rw [hord]
          simp
      | none =>
        dsimp only
        by_cases hq : q < 1000
        · rw [if_pos hq]
        · rw [if_neg hq]
          simp only [cart_save_items, setItem_items]
          refine Eq.trans (itemsOfOrder_replace_stable _ oid _ ?_ ?_)
            (itemsOfOrder_append_stable _ oid _ ?_)
          · intro x hx hxo hxid
            rcases List.mem_append.mp hx with hx1 | hx2
            · have hlt := (hWF.1 x hx1).1
              rw [hxid] at hlt
              simp at hlt
            · have hx2x : x = LineItem.save w
                  { id := w.nextId, productId := pid, quantity := 1000, price := 0,
                    cart := some cid, order := none } := by simpa using hx2
              rw [hx2x, LineItem.save_order] at hxo
              cases hxo
          · rw [LineItem.save_order]
            simp
          · rw [LineItem.save_order]
            simp
  · rw [getOrder?_congr _ w oid (add_line_item_orders w cid pid q)]
    exact ho
  · unfold Cart.update_line_item
    by_cases hq : q < 1000
    · rw [if_pos hq]
    · rw [if_neg hq]
      cases hgc : getCart? w cid with
      | none => rfl
      | some c =>
        cases hf : w.items.find? (fun x => x.productId == pid && x.cart == some cid) with
        | some li =>
          have hmem := List.mem_of_find?_eq_some hf
          have hcart : li.cart = some cid := by
            have hp2 := List.find?_some hf
            simp at hp2
            exact hp2.2
          have hord : li.order = none := by
            rcases hOK li hmem with ⟨_, h2⟩ | ⟨h1, _⟩
            · exact h2
            · rw [h1] at hcart
              cases hcart
          simp only [cart_save_items, setItem_items]
          apply itemsOfOrder_replace_stable
          · intro x hx hxo hxid
            have hLid : (LineItem.save w { li with quantity := q }).id = li.id := rfl
            rw [hLid] at hxid
            have hxli : x = li := hinj x hx li hmem hxid
            rw [hxli, hord] at hxo
            cases hxo
          · rw [LineItem.save_order]
            show ¬ li.order = some oid
            rw [hord]
            simp
        | none =>
          simp only [cart_save_items, setItem_items]
          refine Eq.trans (itemsOfOrder_replace_stable _ oid _ ?_ ?_)
            (itemsOfOrder_append_stable _ oid _ ?_)
          · intro x hx hxo hxid
            rcases List.mem_append.mp hx with hx1 | hx2
            · have hlt := (hWF.1 x hx1).1
              rw [hxid] at hlt
              simp at hlt
            · have hx2x : x = LineItem.save w
                  { id := w.nextId, productId := pid, quantity := 1000, price := 0,
                    cart := some cid, order := none } := by simpa using hx2
              rw [hx2x, LineItem.save_order] at hxo
              cases hxo
          · rw [LineItem.save_order]
            simp
          · rw [LineItem.save_order]
            simp
  · rw [getOrder?_congr _ w oid (update_line_item_orders w cid pid q)]
    exact ho
  · intro hnot
    unfold Cart.remove_line_item
    cases hgc : getCart? w cid with
    | none => rfl
    | some c =>
      simp only [cart_save_items]
      apply itemsOfOrder_filter_stable
      intro li hli hlio
      have hmemo : li ∈ itemsOfOrder w.items oid := by
        unfold itemsOfOrder
        exact List.mem_filter.mpr ⟨hli, by simp [hlio]⟩
      have hne := hnot li hmemo
      simp [hne]
  · rw [getOrder?_congr _ w oid (remove_line_item_orders w cid liId)]
    exact ho
  · unfold Cart.empty_cart
    cases hgc : getCart? w cid with
    | none => rfl
    | some c =>
      simp only [cart_save_items]
      apply itemsOfOrder_filter_stable
      intro li hli hlio
      have hlic : li.cart = none := by
        rcases hOK li hli with ⟨_, h2⟩ | ⟨h1, _⟩
        · rw [hlio] at h2
          cases h2
        · exact h1
      simp [hlic]
  · rw [getOrder?_congr _ w oid (empty_cart_orders w cid)]
    exact ho
  · cases hgc : getCart? w cid with
    | none =>
      unfold Cart.make_order
      rw [hgc]
    | some c =>
      by_cases h0 : c.total_price = 0
      · rw [C2_make_order_zero_total_aborts w cid c hgc h0]
      · rw [make_order_eq w cid c hgc h0]
        simp only [cart_save_items, order_save_items, moveItems_items,
          add_comment_items, order_create_items]
        apply itemsOfOrder_map_stable
        intro x hx
        constructor
        · intro hxo
          have hxc : x.cart = none := by
            rcases hOK x hx with ⟨_, h2⟩ | ⟨h1, _⟩
            · rw [hxo] at h2
              cases h2
            · exact h1
          rw [if_neg (by rw [hxc]; simp)]
        · intro hgx
          by_cases hxc : x.cart = some cid
          · rw [if_pos hxc, LineItem.save_order] at hgx
            have hxn : w.nextId = oid := by simpa using hgx
            omega
          · rwa [if_neg hxc] at hgx
  · cases hgc : getCart? w cid with
    | none =>
      unfold Cart.make_order
      rw [hgc]
      exact ho
    | some c =>
      by_cases h0 : c.total_price = 0
      · rw [C2_make_order_zero_total_aborts w cid c hgc h0]
        exact ho
      · rw [make_order_eq w cid c hgc h0]
        set o1 := (Order.create w).1 with ho1
        set W2 := Order.add_comment (Order.create w).2 w.nextId with hW2
        set o2 : Order := { o1 with customerAccount := c.customerAccount } with ho2x
        set W3 := moveItems W2 cid w.nextId with hW3
        rw [getOrder?_congr (Cart.save (Order.save W3 o2) c) (Order.save W3 o2) oid rfl]
        have hne : o2.id ≠ oid := by
          have h2 : o2.id = w.nextId := rfl
          rw [h2]
          omega
        rw [getOrder?_save_other W3 o2 oid hne]
        rw [getOrder?_congr W3 (Order.create w).2 oid rfl]
        unfold getOrder?
        rw [order_create_orders]
        exact find?_append_some _ ho
  · simp only [product_save_items]
  · rw [getOrder?_congr _ w oid (product_save_orders w p)]
    exact ho
  · unfold Order.resave
    rw [ho]
    rfl
  · unfold Order.resave
    rw [ho]
    dsimp only
    have h8 : getOrder? (Order.save w o) oid = some (Order.save_fields w o) := by
      rw [← hoid]
      exact getOrder?_save w o
    rw [h8, Option.map_some']
    have h9 : (Order.save_fields w o).total_price = Order.calculate_total_price w o.id := by
      simp [Order.save_fields]
    rw [h9]
    have h10 := hT o homem hoid
    rw [hoid, ← h10]

def exWorldO3 : World :=
  Product.save exWorldO { id := 0, name := "p", slug := "p", price := 3 }

def exOrderMade : Order :=
  { id := 3, total_price := 2000, ref_number := "R", slug := "r", customerAccount := none }

/-- Counterexample to C5 as stated: after the order is created (its item has
price 2000) and the product's unit price changes from 2 to 3, a direct
line-item save — one of the operations the claim quantifies over — re-derives
the price and changes the order's line items (2000 becomes 3000). -/
theorem C5_counterexample :
    (itemsOfOrder exWorldO3.items 3).map LineItem.price = [2000]
    ∧ (getOrder? exWorldO3 3).map Order.total_price = some 2000
    ∧ (itemsOfOrder (LineItem.resave exWorldO3 2).items 3).map LineItem.price = [3000]
    ∧ itemsOfOrder (LineItem.resave exWorldO3 2).items 3 ≠ itemsOfOrder exWorldO3.items 3 := by
  decide

/-- Witness for C5 amended in the state reached right after placing the
order. -/
theorem C5_amended_order_snapshot_witness :
    WF exWorldO ∧ itemsOK exWorldO ∧ orderTotalOK exWorldO 3
    ∧ getOrder? exWorldO 3 = some exOrderMade
    ∧ itemsOfOrder (Cart.add_line_item exWorldO 1 0 1000).items 3
        = itemsOfOrder exWorldO.items 3
    ∧ getOrder? (Cart.add_line_item exWorldO 1 0 1000) 3 = some exOrderMade
    ∧ itemsOfOrder (Cart.update_line_item exWorldO 1 0 1000).items 3
        = itemsOfOrder exWorldO.items 3
    ∧ getOrder? (Cart.update_line_item exWorldO 1 0 1000) 3 = some exOrderMade
    ∧ itemsOfOrder (Cart.remove_line_item exWorldO 1 7).items 3
        = itemsOfOrder exWorldO.items 3
    ∧ getOrder? (Cart.remove_line_item exWorldO 1 7) 3 = some exOrderMade
    ∧ itemsOfOrder (Cart.empty_cart exWorldO 1).items 3 = itemsOfOrder exWorldO.items 3
    ∧ getOrder? (Cart.empty_cart exWorldO 1) 3 = some exOrderMade
    ∧ itemsOfOrder (Cart.make_order exWorldO 1).2.items 3 = itemsOfOrder exWorldO.items 3
    ∧ getOrder? (Cart.make_order exWorldO 1).2 3 = some exOrderMade
    ∧ itemsOfOrder (Product.save exWorldO exProduct).items 3 = itemsOfOrder exWorldO.items 3
    ∧ getOrder? (Product.save exWorldO exProduct) 3 = some exOrderMade
    ∧ itemsOfOrder (Order.resave exWorldO 3).items 3 = itemsOfOrder exWorldO.items 3
    ∧ (getOrder? (Order.resave exWorldO 3) 3).map Order.total_price
        = some exOrderMade.total_price := by
  have hWF : WF exWorldO := by
    simp only [WF]
    decide
  have hOK : itemsOK exWorldO := by
    simp only [itemsOK]
    decide
  have hT : orderTotalOK exWorldO 3 := by
    simp only [orderTotalOK]
    decide
  have ho : getOrder? exWorldO 3 = some exOrderMade := by decide
  have h := C5_amended_order_snapshot exWorldO 3 1 0 7 1000 exProduct exOrderMade hWF hOK hT ho
  exact ⟨hWF, hOK, hT, ho, h.1, h.2.1, h.2.2.1, h.2.2.2.1,
    h.2.2.2.2.1 (by decide), h.2.2.2.2.2.1, h.2.2.2.2.2.2.1, h.2.2.2.2.2.2.2.1,
    h.2.2.2.2.2.2.2.2.1, h.2.2.2.2.2.2.2.2.2.1, h.2.2.2.2.2.2.2.2.2.2.1,
    h.2.2.2.2.2.2.2.2.2.2.2.1, h.2.2.2.2.2.2.2.2.2.2.2.2.1,
    h.2.2.2.2.2.2.2.2.2.2.2.2.2⟩

end Ventashop
